import Mathlib

/-!
Verification development for the hook-generator application.

The embedding translates the asynchronous generation-job tracker of
`HookGenerator.py` and the payload construction and parsing of
`model_serving_utils.py` into executable Lean definitions.  Text is
modelled as `List Char` (Python `str`), Python `None`-able values as
`Option`, Python exceptions as `Except`, and the process-wide
`self.generation_status` dictionary as an association list with
dictionary update semantics.
-/

namespace HookApp

/-! ### Small string utilities (Python `str` helpers over `List Char`) -/

/-- Boolean prefix test on character lists (used to model literal matching
done by Python's `str.split`, `str.startswith` and `re` literals). -/
def isPrefixL : List Char → List Char → Bool
  | [], _ => true
  | _ :: _, [] => false
  | c :: p, d :: s => c == d && isPrefixL p s

/-- Python `str.strip()`: drop whitespace from both ends. -/
def stripChars (s : List Char) : List Char :=
  ((s.dropWhile Char.isWhitespace).reverse.dropWhile Char.isWhitespace).reverse

/-- First occurrence split: `findSplit sep s = some (before, after)` when
`sep` occurs in `s`, splitting at the leftmost occurrence.  This models the
pieces `parts[0]` / `parts[1]` of Python `s.split(sep)` for a non-empty
separator. -/
def findSplit (sep : List Char) : List Char → Option (List Char × List Char)
  | [] => Option.none
  | c :: rest =>
    if isPrefixL sep (c :: rest) then some ([], (c :: rest).drop sep.length)
    else (findSplit sep rest).map (fun p => (c :: p.1, p.2))

/-! ### Python values and the job registry -/

/-- A structured content part of a chat message (`\x7b"type": ..., "text": ...\x7d`
dictionary); absent keys are `Option.none`. -/
structure MsgPart where
  ptype : Option (List Char)
  ptext : Option (List Char)
deriving DecidableEq

/-- The Python values that flow through the tracker: `None`, strings, and
lists of structured content parts (the shapes a message `content` field and
a job `result` field can take). -/
inductive PyVal where
  | none
  | str (s : List Char)
  | parts (l : List MsgPart)
deriving DecidableEq

/-- One entry of `self.generation_status`: the dictionary
`\x7b'status': ..., 'result': ...\x7d` stored per job id. -/
structure Entry where
  status : List Char
  result : PyVal
deriving DecidableEq

/-- The process-wide registry `self.generation_status`, a Python dict from
job id to entry, modelled as an association list with unique keys. -/
abbrev Registry := List (List Char × Entry)

/-- Dictionary read `reg[k]` / `k in reg`. -/
def lookupReg (k : List Char) : Registry → Option Entry
  | [] => Option.none
  | (k', v) :: rest => if k = k' then some v else lookupReg k rest

/-- Dictionary write `reg[k] = v` (overwrites an existing binding, else
appends a new one). -/
def insertReg (k : List Char) (v : Entry) : Registry → Registry
  | [] => [(k, v)]
  | (k', v') :: rest =>
    if k = k' then (k, v) :: rest else (k', v') :: insertReg k v rest

/-- Dictionary delete `del reg[k]`. -/
def eraseReg (k : List Char) (r : Registry) : Registry :=
  r.filter (fun p => p.1 ≠ k)

/-! ### The model-serving client (`model_serving_utils.py`) -/

/-- A chat message dictionary.  `content` distinguishes an absent key
(`Option.none`) from a present `None` value (`some PyVal.none`), matching
Python `dict.get` semantics. -/
structure Message where
  role : Option (List Char)
  content : Option PyVal
deriving DecidableEq

/-- One element of a `choices` array; its `message` key may be missing. -/
structure Choice where
  message : Option Message
deriving DecidableEq

/-- The JSON response returned by `get_deploy_client(...).predict` for a
chat endpoint: it may carry a `messages` key, a `choices` key, both, or
neither (`"messages" in res` is tested first in the source). -/
structure ModelResponse where
  messages : Option (List Message)
  choices : Option (List Choice)
deriving DecidableEq

/-- The final `raise Exception(...)` message of `_query_endpoint`
(adjacent string literals concatenated, as in the source). -/
def unsupportedEndpointMsg : List Char :=
  ("This app can only run against:" ++
   "1) Databricks foundation model or external model endpoints with the chat task type (described in https://docs.databricks.com/aws/en/machine-learning/model-serving/score-foundation-models#chat-completion-model-query)" ++
   "2) Databricks agent serving endpoints that implement the conversational agent schema documented " ++
   "in https://docs.databricks.com/aws/en/generative-ai/agent-framework/author-agent").data

/-- `"".join(part.get("text", "") for part in choice_content if part.get("type") == "text")`. -/
def joinTextParts (l : List MsgPart) : List Char :=
  ((l.filter (fun p => p.ptype == some "text".data)).map
    (fun p => p.ptext.getD [])).flatten

/-- The body of `_query_endpoint` applied to a received response: returns
the message list, or the exception message it raises.  `res["choices"][0]`
on an empty list raises `IndexError`, a missing `"message"` key raises
`KeyError` (their Python `str(e)` texts are used). -/
def queryEndpointRaw (res : ModelResponse) : Except (List Char) (List Message) :=
  match res.messages with
  | some msgs => .ok msgs
  | Option.none =>
    match res.choices with
    | some chs =>
      match chs with
      | [] => .error "list index out of range".data
      | ch :: _ =>
        match ch.message with
        | Option.none => .error "'message'".data
        | some msg =>
          match msg.content with
          | some (.parts l) =>
            .ok [{ role := msg.role, content := some (.str (joinTextParts l)) }]
          | some (.str _) => .ok [msg]
          | _ => .error unsupportedEndpointMsg
    | Option.none => .error unsupportedEndpointMsg

/-- `_query_endpoint`: the remote interaction up to receiving a response is
an opaque `call` that either yields a response or raises (endpoint
validation failure, network error, ...); a received response is then
dispatched by `queryEndpointRaw`. -/
def queryEndpoint (call : Except (List Char) ModelResponse) :
    Except (List Char) (List Message) :=
  match call with
  | .error e => .error e
  | .ok res => queryEndpointRaw res

/-- `generate_hooks`: queries the endpoint, takes the last message
(`[-1]`, raising `IndexError` on an empty list inside the `try`), and
returns `response.get("content", "Error: No content in response")`.  Any
exception is re-raised as `Failed to generate hooks: ...`. -/
def generateHooks (call : Except (List Char) ModelResponse) :
    Except (List Char) PyVal :=
  match queryEndpoint call with
  | .error e => .error ("Failed to generate hooks: ".data ++ e)
  | .ok msgs =>
    match msgs.getLast? with
    | Option.none => .error ("Failed to generate hooks: ".data ++ "list index out of range".data)
    | some m =>
      match m.content with
      | Option.none => .ok (.str "Error: No content in response".data)
      | some v => .ok v

/-! ### Image generation (`_generate_image`, `generate_thumbnails`) -/

/-- One element of the image response `data` array; `b64_json` may be
missing (`images[0].get('b64_json', '')`). -/
structure ImageItem where
  b64Json : Option (List Char)
deriving DecidableEq

/-- The response of the Shutterstock image endpoint: a dict that may carry
a `data` key, or a non-dict value. -/
inductive ImageResp where
  | dict (dat : Option (List ImageItem))
  | nonDict
deriving DecidableEq

/-- `_generate_image`: the whole call is wrapped in `try/except`; any
exception and any unusable shape yields the empty string. -/
def genImage (call : Except (List Char) ImageResp) : List Char :=
  match call with
  | .error _ => []
  | .ok .nonDict => []
  | .ok (.dict Option.none) => []
  | .ok (.dict (some items)) =>
    match items with
    | [] => []
    | it :: _ => it.b64Json.getD []

/-! ### The `IMAGE_DESCRIPTION` scanner of `generate_thumbnails`

Models `re.findall(r'IMAGE_DESCRIPTION:\s*(.+?)(?=\n\n|\n\d+\.|$)', concepts_text, re.DOTALL)`:
scan left to right; at a position where the literal matches, consume the
greedy whitespace run, then take the shortest non-empty capture whose end
satisfies the lookahead (`\n\n`, or `\n` digits `.`, or end of input; the
end-of-input alternative always succeeds at the end, and when the
whitespace run reaches the end of input the engine backtracks one
whitespace character into the capture). -/

theorem isPrefixL_length {p s : List Char} (h : isPrefixL p s = true) :
    p.length ≤ s.length := by
  induction p generalizing s with
  | nil => simp
  | cons c p ih =>
    cases s with
    | nil => simp [isPrefixL] at h
    | cons d s' =>
      simp only [isPrefixL, Bool.and_eq_true] at h
      simpa using Nat.succ_le_succ (ih h.2)

/-- The lookahead `(?=\n\n|\n\d+\.|$)`. -/
def descLookahead (s : List Char) : Bool :=
  (match s with
   | '\n' :: '\n' :: _ => true
   | _ => false) ||
  (match s with
   | '\n' :: rest =>
     (!(rest.takeWhile Char.isDigit).isEmpty) &&
       (match rest.drop (rest.takeWhile Char.isDigit).length with
        | '.' :: _ => true
        | _ => false)
   | _ => false) ||
  s.isEmpty

/-- Extend the non-greedy capture until the lookahead holds (it always
holds at the end of input). -/
def descCaptureGo (accRev : List Char) : List Char → List Char × List Char
  | [] => (accRev.reverse, [])
  | c :: rest =>
    if descLookahead (c :: rest) then (accRev.reverse, c :: rest)
    else descCaptureGo (c :: accRev) rest

def descLit : List Char := "IMAGE_DESCRIPTION:".data

/-- The part of a description match after the literal `IMAGE_DESCRIPTION:`:
greedy `\s*`, then the capture.  Returns the capture and the remainder of
the input at the match end (the lookahead consumes nothing).  When the
whitespace run reaches the end of input, the engine backtracks one
whitespace character into the capture (or fails if there was none). -/
def descAfterLit (s1 : List Char) : Option (List Char × List Char) :=
  match s1.drop (s1.takeWhile Char.isWhitespace).length with
  | c :: rest => some (descCaptureGo [c] rest)
  | [] =>
    match (s1.takeWhile Char.isWhitespace).reverse with
    | [] => Option.none
    | c :: _ => some ([c], [])

/-- Attempt the description pattern at the current position. -/
def descMatchAt (s : List Char) : Option (List Char × List Char) :=
  if isPrefixL descLit s then descAfterLit (s.drop descLit.length)
  else Option.none

theorem length_drop_le' (n : Nat) (l : List Char) : (l.drop n).length ≤ l.length := by
  rw [List.length_drop]; omega

theorem descCaptureGo_length (accRev : List Char) :
    ∀ s : List Char, (descCaptureGo accRev s).2.length ≤ s.length := by
  intro s
  induction s generalizing accRev with
  | nil => simp [descCaptureGo]
  | cons c rest ih =>
    simp only [descCaptureGo]
    split
    · simp
    · exact le_trans (ih _) (by simp)

theorem descAfterLit_length {s1 cap after : List Char}
    (h : descAfterLit s1 = some (cap, after)) : after.length ≤ s1.length := by
  unfold descAfterLit at h
  rcases hdrop : s1.drop (s1.takeWhile Char.isWhitespace).length with _ | ⟨c, rest⟩ <;>
    rw [hdrop] at h
  · rcases hrev : (s1.takeWhile Char.isWhitespace).reverse with _ | ⟨w, ws⟩ <;>
      rw [hrev] at h
    · simp at h
    · simp only [Option.some.injEq, Prod.mk.injEq] at h
      rw [← h.2]; simp
  · simp only [Option.some.injEq] at h
    have h1 : after.length ≤ rest.length := by
      simpa [h] using descCaptureGo_length [c] rest
    have h3 : (s1.drop (s1.takeWhile Char.isWhitespace).length).length ≤ s1.length :=
      length_drop_le' _ _
    rw [hdrop] at h3
    simp only [List.length_cons] at h3
    omega

theorem descMatchAt_shrink {s cap after : List Char}
    (h : descMatchAt s = some (cap, after)) : after.length < s.length := by
  unfold descMatchAt at h
  split at h
  · next hpre =>
    have h18 : descLit.length ≤ s.length := isPrefixL_length hpre
    have hd : descLit.length = 18 := by decide
    have h1 : after.length ≤ (s.drop descLit.length).length := descAfterLit_length h
    rw [List.length_drop] at h1
    omega
  · exact absurd h (by simp)

/-- `re.findall` over the whole text: try the pattern at every position,
from the left; on a match, continue after the match end. -/
def extractDescriptions : List Char → List (List Char)
  | [] => []
  | c :: rest =>
    match h : descMatchAt (c :: rest) with
    | some (cap, after) => cap :: extractDescriptions after
    | Option.none => extractDescriptions rest
termination_by s => s.length
decreasing_by
  · exact descMatchAt_shrink h
  · simp

/-! ### The base64-image scanner of `display_thumbnail_results`

Models
`re.findall(r'Image \d+:\n\[BASE64_IMAGE_DATA\]\n(.+?)\n\[END_IMAGE_DATA\]', result, re.DOTALL)`. -/

def imgPat1 : List Char := "Image ".data
def imgPat2 : List Char := ":\n[BASE64_IMAGE_DATA]\n".data
def imgEnd : List Char := "\n[END_IMAGE_DATA]".data

/-- Extend the non-greedy capture until the literal `\n[END_IMAGE_DATA]`
follows; that literal is part of the match and is consumed. -/
def imgCaptureGo (accRev : List Char) : List Char → Option (List Char × List Char)
  | [] => Option.none
  | c :: rest =>
    if isPrefixL imgEnd (c :: rest) then
      some (accRev.reverse, (c :: rest).drop imgEnd.length)
    else imgCaptureGo (c :: accRev) rest

/-- After `Image \d+`: the literal `:\n[BASE64_IMAGE_DATA]\n`, then the
capture (at least one character). -/
def imgAfterDigits (s2 : List Char) : Option (List Char × List Char) :=
  if isPrefixL imgPat2 s2 then
    match s2.drop imgPat2.length with
    | [] => Option.none
    | c :: rest => imgCaptureGo [c] rest
  else Option.none

/-- After the literal `Image `: the greedy `\d+` (at least one digit),
then the rest of the pattern. -/
def imgAfterPat1 (s1 : List Char) : Option (List Char × List Char) :=
  if (s1.takeWhile Char.isDigit).isEmpty then Option.none
  else imgAfterDigits (s1.drop (s1.takeWhile Char.isDigit).length)

/-- Attempt the image pattern at the current position. -/
def matchImageAt (s : List Char) : Option (List Char × List Char) :=
  if isPrefixL imgPat1 s then imgAfterPat1 (s.drop imgPat1.length)
  else Option.none

theorem imgCaptureGo_length (accRev : List Char) :
    ∀ {s cap after : List Char},
      imgCaptureGo accRev s = some (cap, after) → after.length ≤ s.length := by
  intro s
  induction s generalizing accRev with
  | nil => intro cap after h; simp [imgCaptureGo] at h
  | cons c rest ih =>
    intro cap after h
    simp only [imgCaptureGo] at h
    split at h
    · simp only [Option.some.injEq, Prod.mk.injEq] at h
      rw [← h.2]
      exact length_drop_le' _ _
    · exact le_trans (ih _ h) (by simp)

theorem imgAfterDigits_shrink {s2 cap after : List Char}
    (h : imgAfterDigits s2 = some (cap, after)) : after.length < s2.length := by
  unfold imgAfterDigits at h
  split at h
  · next hpre =>
    have h22 : imgPat2.length ≤ s2.length := isPrefixL_length hpre
    have hd : imgPat2.length = 22 := by decide
    split at h
    · exact absurd h (by simp)
    · next c rest heq =>
      have h1 : after.length ≤ rest.length := imgCaptureGo_length [c] h
      have h2 : (s2.drop imgPat2.length).length = rest.length + 1 := by
        rw [heq]; simp
      rw [List.length_drop] at h2
      omega
  · exact absurd h (by simp)

theorem imgAfterPat1_shrink {s1 cap after : List Char}
    (h : imgAfterPat1 s1 = some (cap, after)) : after.length < s1.length := by
  unfold imgAfterPat1 at h
  split at h
  · exact absurd h (by simp)
  · next hne =>
    have h1 : after.length < (s1.drop (s1.takeWhile Char.isDigit).length).length :=
      imgAfterDigits_shrink h
    have h2 : 1 ≤ (s1.takeWhile Char.isDigit).length := by
      cases hq : s1.takeWhile Char.isDigit with
      | nil => rw [hq] at hne; simp at hne
      | cons d ds => simp [hq]
    rw [List.length_drop] at h1
    omega

theorem matchImageAt_shrink {s cap after : List Char}
    (h : matchImageAt s = some (cap, after)) : after.length < s.length := by
  unfold matchImageAt at h
  split at h
  · next hpre =>
    have h6 : imgPat1.length ≤ s.length := isPrefixL_length hpre
    have hd : imgPat1.length = 6 := by decide
    have h1 : after.length < (s.drop imgPat1.length).length := imgAfterPat1_shrink h
    rw [List.length_drop] at h1
    omega
  · exact absurd h (by simp)

/-- `re.findall` for the image pattern: non-overlapping matches, scanned
left to right. -/
def extractImages : List Char → List (List Char)
  | [] => []
  | c :: rest =>
    match h : matchImageAt (c :: rest) with
    | some (cap, after) => cap :: extractImages after
    | Option.none => extractImages rest
termination_by s => s.length
decreasing_by
  · exact matchImageAt_shrink h
  · simp

/-! ### `generate_thumbnails` payload construction -/

/-- The header pushed into `result_parts`:
`"\n\n" + "="*50 + "\n🎨 GENERATED IMAGES\n" + "="*50 + "\n\n"`. -/
def imagesHeader : List Char :=
  "\n\n".data ++ List.replicate 50 '=' ++ "\n🎨 GENERATED IMAGES\n".data ++
    List.replicate 50 '=' ++ "\n\n".data

/-- The per-description loop body of `generate_thumbnails`
(`for idx, desc in enumerate(descriptions[:2], 1)`): generate the image
for the stripped description and append either the framed base64 block or
the failure line. -/
def thumbImageBlocks (imageCall : List Char → Except (List Char) ImageResp) :
    Nat → List (List Char) → List (List Char)
  | _, [] => []
  | idx, d :: ds =>
    (if genImage (imageCall (stripChars d)) ≠ [] then
      "Image ".data ++ (Nat.repr idx).data ++ ":\n[BASE64_IMAGE_DATA]\n".data ++
        genImage (imageCall (stripChars d)) ++ "\n[END_IMAGE_DATA]\n\n".data
     else
      "Image ".data ++ (Nat.repr idx).data ++ ": ❌ Failed to generate\n\n".data)
    :: thumbImageBlocks imageCall (idx + 1) ds

/-- The message of the `TypeError` Python's `re.findall` raises when
`concepts_text` is not a string (content missing, `None`, or a list). -/
def typeErrorMsg : List Char := "expected string or bytes-like object".data

/-- `generate_thumbnails`: query the endpoint for concepts, extract the
`IMAGE_DESCRIPTION` fields, generate at most two images, and join
`result_parts`.  Every exception inside the `try` is re-raised as
`Failed to generate thumbnails: ...`; the image calls themselves cannot
raise (`_generate_image` catches internally). -/
def generateThumbnails (call : Except (List Char) ModelResponse)
    (imageCall : List Char → Except (List Char) ImageResp) :
    Except (List Char) (List Char) :=
  match queryEndpoint call with
  | .error e => .error ("Failed to generate thumbnails: ".data ++ e)
  | .ok msgs =>
    match msgs.getLast? with
    | Option.none =>
      .error ("Failed to generate thumbnails: ".data ++ "list index out of range".data)
    | some m =>
      match (match m.content with
             | Option.none => PyVal.str "Error: No content in response".data
             | some v => v) with
      | .str concepts =>
        .ok (concepts ++ imagesHeader ++
          (thumbImageBlocks imageCall 1 ((extractDescriptions concepts).take 2)).flatten)
      | _ => .error ("Failed to generate thumbnails: ".data ++ typeErrorMsg)

/-! ### `display_thumbnail_results` (rendering hand-off) -/

def thumbMarker : List Char := "🎨 GENERATED IMAGES".data

/-- What the hand-off produces from a completed thumbnail payload:
`conceptsText` is `parts[0]` of `result.split("🎨 GENERATED IMAGES")`,
`storeData` the stripped copy payload written to the output store,
`imageMatches` the extracted base64 captures and `rendered` the
`(index, cleaned-blob)` pairs actually rendered as `html.Img` (blobs blank
after stripping are skipped). -/
structure ThumbDisplay where
  conceptsText : List Char
  storeData : List Char
  imageMatches : List (List Char)
  rendered : List (Nat × List Char)
deriving DecidableEq

def displayThumbnailResults (result : List Char) : ThumbDisplay :=
  let conceptsText :=
    match findSplit thumbMarker result with
    | some p => p.1
    | Option.none => result
  let imageMatches := extractImages result
  { conceptsText := conceptsText
    storeData := stripChars conceptsText
    imageMatches := imageMatches
    rendered := (imageMatches.enumFrom 1).filterMap (fun p =>
      if (stripChars p.2).isEmpty then Option.none
      else some (p.1, stripChars p.2)) }

/-! ### The job tracker callbacks of `HookGenerator.py` -/

/-- `f"gen_\x7bn_clicks\x7d_\x7btime.time()\x7d"`; `t` is the textual rendering of
the timestamp. -/
def genHookId (n : Nat) (t : List Char) : List Char :=
  "gen_".data ++ (Nat.repr n).data ++ "_".data ++ t

/-- `f"thumb_\x7bn_clicks\x7d_\x7btime.time()\x7d"`. -/
def genThumbId (n : Nat) (t : List Char) : List Char :=
  "thumb_".data ++ (Nat.repr n).data ++ "_".data ++ t

/-- `not blog_content or not blog_content.strip()`: the input is `None`,
empty, or whitespace-only. -/
def pyBlank : Option (List Char) → Bool
  | Option.none => true
  | some s => s.isEmpty || (stripChars s).isEmpty

/-- Ordered side effects of a start callback, in source order: the
synchronous registry insert happens before the background thread start. -/
inductive Ev where
  | insertEntry (id : List Char) (e : Entry)
  | dispatchWorker (id : List Char)
deriving DecidableEq

/-- The Dash outputs of a start callback: trigger store data, the two
container styles (`display` values), and the interval `disabled` /
`n_intervals` pair; or `dash.no_update` on all five. -/
inductive CallbackOut where
  | out (trigger : Option (List Char)) (loadingDisplay : List Char)
      (outputDisplay : List Char) (intervalDisabled : Bool) (nIntervals : Nat)
  | noUpdate
deriving DecidableEq

structure StartOut where
  result : CallbackOut
  registry : Registry
  pending : Option (List Char)
  events : List Ev
deriving DecidableEq

/-- `\x7b'status': 'generating', 'result': None\x7d`. -/
def runningEntry : Entry := { status := "generating".data, result := PyVal.none }

def dispNone : List Char := "none".data
def dispBlock : List Char := "block".data

/-- Callback 1, `start_generation`: reject blank input; otherwise insert
the running entry synchronously, start the background thread (`pending` /
`events` record the dispatch), and return the fresh id with loading shown
and the interval enabled. -/
def startGeneration (nClicks : Nat) (blogContent : Option (List Char))
    (t : List Char) (reg : Registry) : StartOut :=
  if pyBlank blogContent then
    { result := .out Option.none dispNone dispBlock true 0
      registry := reg, pending := Option.none, events := [] }
  else if 0 < nClicks then
    { result := .out (some (genHookId nClicks t)) dispBlock dispNone false 0
      registry := insertReg (genHookId nClicks t) runningEntry reg
      pending := some (genHookId nClicks t)
      events := [.insertEntry (genHookId nClicks t) runningEntry,
                 .dispatchWorker (genHookId nClicks t)] }
  else
    { result := .noUpdate, registry := reg, pending := Option.none, events := [] }

/-- Callback 5, `start_thumbnail_generation`: identical shape with the
`thumb_` id. -/
def startThumbnailGeneration (nClicks : Nat) (blogContent : Option (List Char))
    (t : List Char) (reg : Registry) : StartOut :=
  if pyBlank blogContent then
    { result := .out Option.none dispNone dispBlock true 0
      registry := reg, pending := Option.none, events := [] }
  else if 0 < nClicks then
    { result := .out (some (genThumbId nClicks t)) dispBlock dispNone false 0
      registry := insertReg (genThumbId nClicks t) runningEntry reg
      pending := some (genThumbId nClicks t)
      events := [.insertEntry (genThumbId nClicks t) runningEntry,
                 .dispatchWorker (genThumbId nClicks t)] }
  else
    { result := .noUpdate, registry := reg, pending := Option.none, events := [] }

/-- `generate_in_background`: run the generation call; on success store a
`complete` entry with the produced value, on any exception store an
`error` entry with `f"❌ Error: \x7bstr(e)\x7d"`.  The function is total: no
exception escapes the worker. -/
def runWorker (gid : List Char) (outcome : Except (List Char) PyVal)
    (reg : Registry) : Registry :=
  match outcome with
  | .ok v => insertReg gid { status := "complete".data, result := v } reg
  | .error e =>
    insertReg gid { status := "error".data, result := .str ("❌ Error: ".data ++ e) } reg

/-- `status_info['status'] in ['complete', 'error']`. -/
def isTerminal (e : Entry) : Bool :=
  e.status == "complete".data || e.status == "error".data

/-- Callbacks 2 and 6, `check_generation_status` /
`check_thumbnail_generation_status` (identical bodies over the shared
registry): returns the `generation-result` data, the interval `disabled`
flag, and the registry after the call.  A falsy (`None` or empty) or
unknown id reports nothing and stops polling; a terminal entry is returned
and deleted; a running entry keeps the interval alive. -/
def checkGenerationStatus (gid : Option (List Char)) (reg : Registry) :
    PyVal × Bool × Registry :=
  match gid with
  | Option.none => (PyVal.none, true, reg)
  | some g =>
    if g.isEmpty then (PyVal.none, true, reg)
    else
      match lookupReg g reg with
      | Option.none => (PyVal.none, true, reg)
      | some e =>
        if isTerminal e then (e.result, true, eraseReg g reg)
        else (PyVal.none, false, reg)

/-- Callback 3, `display_results`: `None` means `dash.no_update` on all
four outputs; otherwise show the result, hide the loading card, show the
output card, and store the result for the copy button. -/
def displayResults (result : PyVal) :
    Option (PyVal × List Char × List Char × PyVal) :=
  match result with
  | PyVal.none => Option.none
  | v => some (v, dispNone, dispBlock, v)

/-- The pieces of component state the clear button can reach, plus the
shared registry and the two interval `disabled` flags (which its callbacks
do not output). -/
structure UiState where
  blogInput : Option (List Char)
  outputDisplay : List Char
  generationResult : PyVal
  thumbOutputDisplay : List Char
  thumbGenerationResult : PyVal
  checkIntervalDisabled : Bool
  thumbCheckIntervalDisabled : Bool
  registry : Registry
deriving DecidableEq

/-- Callback 4, `clear_all`: on a truthy click count, blank the input,
hide the hooks output and null the hooks result store. -/
def clearAll (nClicks : Nat) (s : UiState) : UiState :=
  if nClicks ≠ 0 then
    { s with blogInput := some [], outputDisplay := dispNone,
             generationResult := PyVal.none }
  else s

/-- Callback 8, `clear_thumbnails`: on a truthy click count, hide the
thumbnails output and null the thumbnails result store. -/
def clearThumbnails (nClicks : Nat) (s : UiState) : UiState :=
  if nClicks ≠ 0 then
    { s with thumbOutputDisplay := dispNone,
             thumbGenerationResult := PyVal.none }
  else s

/-! ### Registry lemmas -/

theorem lookupReg_insertReg_self (k : List Char) (v : Entry) (r : Registry) :
    lookupReg k (insertReg k v r) = some v := by
  induction r with
  | nil => simp [insertReg, lookupReg]
  | cons p rest ih =>
    obtain ⟨k', v'⟩ := p
    by_cases hk : k = k'
    · simp [insertReg, hk, lookupReg]
    · simp [insertReg, hk, lookupReg, ih]

theorem lookupReg_eraseReg_self (k : List Char) (r : Registry) :
    lookupReg k (eraseReg k r) = Option.none := by
  induction r with
  | nil => simp [eraseReg, lookupReg]
  | cons p rest ih =>
    obtain ⟨k', v'⟩ := p
    by_cases hk : k' = k
    · subst hk
      simpa [eraseReg, List.filter_cons] using ih
    · simpa [eraseReg, List.filter_cons, hk, lookupReg, Ne.symm hk] using ih

/-- The consuming read: a terminal entry is returned once with polling
stopped, and its registry entry deleted (shared between several claims). -/
theorem poll_terminal_aux (g : List Char) (reg : Registry) (e : Entry)
    (hg : g ≠ []) (hfound : lookupReg g reg = some e)
    (hterm : isTerminal e = true) :
    checkGenerationStatus (some g) reg = (e.result, true, eraseReg g reg) := by
  have hne : g.isEmpty = false := by
    cases g with
    | nil => exact absurd rfl hg
    | cons c cs => rfl
  simp [checkGenerationStatus, hne, hfound, hterm]

/-! ### Claim C1: consume-once polling -/

/-- C1: for a job id whose registry entry is terminal (`complete` or
`error`), the first poll returns the stored result with the stop-polling
flag and deletes the entry, and every subsequent poll of the same id
reports nothing pending with polling stopped; no second retrieval is
possible. -/
theorem poll_consume_once (g : List Char) (reg : Registry) (e : Entry)
    (hg : g ≠ []) (hfound : lookupReg g reg = some e)
    (hterm : isTerminal e = true) :
    checkGenerationStatus (some g) reg = (e.result, true, eraseReg g reg) ∧
    checkGenerationStatus (some g) (eraseReg g reg) =
      (PyVal.none, true, eraseReg g reg) := by
  have hne : g.isEmpty = false := by
    cases g with
    | nil => exact absurd rfl hg
    | cons c cs => rfl
  refine ⟨poll_terminal_aux g reg e hg hfound hterm, ?_⟩
  simp [checkGenerationStatus, hne, lookupReg_eraseReg_self]

theorem poll_consume_once_witness :
    checkGenerationStatus (some "gen_1_9.5".data)
        [("gen_1_9.5".data, ⟨"complete".data, PyVal.str "hooks".data⟩)] =
      ((⟨"complete".data, PyVal.str "hooks".data⟩ : Entry).result, true,
        eraseReg "gen_1_9.5".data
          [("gen_1_9.5".data, ⟨"complete".data, PyVal.str "hooks".data⟩)]) ∧
    checkGenerationStatus (some "gen_1_9.5".data)
        (eraseReg "gen_1_9.5".data
          [("gen_1_9.5".data, ⟨"complete".data, PyVal.str "hooks".data⟩)]) =
      (PyVal.none, true,
        eraseReg "gen_1_9.5".data
          [("gen_1_9.5".data, ⟨"complete".data, PyVal.str "hooks".data⟩)]) :=
  poll_consume_once "gen_1_9.5".data
    [("gen_1_9.5".data, ⟨"complete".data, PyVal.str "hooks".data⟩)]
    ⟨"complete".data, PyVal.str "hooks".data⟩
    (by decide) (by decide) (by decide)

/-! ### Claim C6: absent or unknown ids are side-effect free -/

/-- C6: a poll whose id is `None` or not present in the registry returns
the nothing-pending signal with polling disabled and leaves the registry
untouched. -/
theorem poll_absent_no_effect (gid : Option (List Char)) (reg : Registry)
    (h : gid = Option.none ∨ ∃ g, gid = some g ∧ lookupReg g reg = Option.none) :
    checkGenerationStatus gid reg = (PyVal.none, true, reg) := by
  rcases h with rfl | ⟨g, rfl, hl⟩
  · rfl
  · cases hge : g.isEmpty
    · simp [checkGenerationStatus, hge, hl]
    · simp [checkGenerationStatus, hge]

theorem poll_absent_no_effect_witness :
    checkGenerationStatus (some "gen_2_1.0".data)
        [("gen_1_9.5".data, ⟨"generating".data, PyVal.none⟩)] =
      (PyVal.none, true, [("gen_1_9.5".data, ⟨"generating".data, PyVal.none⟩)]) :=
  poll_absent_no_effect (some "gen_2_1.0".data)
    [("gen_1_9.5".data, ⟨"generating".data, PyVal.none⟩)]
    (Or.inr ⟨"gen_2_1.0".data, rfl, by decide⟩)

/-! ### Claim C3: blank input is rejected without side effects -/

/-- C3: a `None`, empty or whitespace-only input makes both start
callbacks return the no-job signal (`None` trigger, polling disabled)
immediately, with no registry entry created and no background work
dispatched. -/
theorem start_blank_rejected (n m : Nat) (blog : Option (List Char))
    (t u : List Char) (reg reg2 : Registry) (hblank : pyBlank blog = true) :
    startGeneration n blog t reg =
      { result := .out Option.none dispNone dispBlock true 0,
        registry := reg, pending := Option.none, events := [] } ∧
    startThumbnailGeneration m blog u reg2 =
      { result := .out Option.none dispNone dispBlock true 0,
        registry := reg2, pending := Option.none, events := [] } := by
  constructor <;> simp [startGeneration, startThumbnailGeneration, hblank]

theorem start_blank_rejected_witness :
    pyBlank (some "  \n ".data) = true ∧
    startGeneration 3 (some "  \n ".data) "7.25".data [] =
      { result := .out Option.none dispNone dispBlock true 0,
        registry := [], pending := Option.none, events := [] } ∧
    startThumbnailGeneration 4 (some "  \n ".data) "7.25".data [] =
      { result := .out Option.none dispNone dispBlock true 0,
        registry := [], pending := Option.none, events := [] } :=
  ⟨by decide,
   (start_blank_rejected 3 4 (some "  \n ".data) "7.25".data "7.25".data [] []
      (by decide)).1,
   (start_blank_rejected 3 4 (some "  \n ".data) "7.25".data "7.25".data [] []
      (by decide)).2⟩

/-! ### Claim C2: start inserts synchronously, then dispatches, then returns -/

/-- C2: for a non-blank request and a positive click count, both start
callbacks synchronously insert the running entry (status `generating`,
result `None`) into the registry, then dispatch the background worker
(the event list records insert before dispatch), and the returned trigger
is the fresh job id — a value computed purely from the click count and
timestamp, never from the remote call's outcome, which the callback does
not consume. -/
theorem start_returns_fresh_id (n : Nat) (blog : Option (List Char))
    (t u : List Char) (reg reg2 : Registry)
    (hvalid : pyBlank blog = false) (hn : 0 < n) :
    (startGeneration n blog t reg).result =
      .out (some (genHookId n t)) dispBlock dispNone false 0 ∧
    (startGeneration n blog t reg).registry =
      insertReg (genHookId n t) runningEntry reg ∧
    lookupReg (genHookId n t) (startGeneration n blog t reg).registry =
      some runningEntry ∧
    (startGeneration n blog t reg).events =
      [.insertEntry (genHookId n t) runningEntry,
       .dispatchWorker (genHookId n t)] ∧
    (startThumbnailGeneration n blog u reg2).result =
      .out (some (genThumbId n u)) dispBlock dispNone false 0 ∧
    (startThumbnailGeneration n blog u reg2).registry =
      insertReg (genThumbId n u) runningEntry reg2 ∧
    (startThumbnailGeneration n blog u reg2).events =
      [.insertEntry (genThumbId n u) runningEntry,
       .dispatchWorker (genThumbId n u)] := by
  refine ⟨?_, ?_, ?_, ?_, ?_, ?_, ?_⟩ <;>
    simp [startGeneration, startThumbnailGeneration, hvalid, hn,
      lookupReg_insertReg_self]

theorem start_returns_fresh_id_witness :
    pyBlank (some "my blog".data) = false ∧ 0 < 1 ∧
    (startGeneration 1 (some "my blog".data) "9.5".data []).result =
      .out (some (genHookId 1 "9.5".data)) dispBlock dispNone false 0 ∧
    (startGeneration 1 (some "my blog".data) "9.5".data []).events =
      [.insertEntry (genHookId 1 "9.5".data) runningEntry,
       .dispatchWorker (genHookId 1 "9.5".data)] :=
  ⟨by decide, by decide,
   (start_returns_fresh_id 1 (some "my blog".data) "9.5".data "9.5".data [] []
      (by decide) (by decide)).1,
   (start_returns_fresh_id 1 (some "my blog".data) "9.5".data "9.5".data [] []
      (by decide) (by decide)).2.2.2.1⟩

/-! ### Claim C4: a raising generation call yields one terminal error entry -/

/-- C4: when the generation call raises, the worker catches the exception
and writes the terminal `error` entry with result `"❌ Error: " + str(e)`
exactly once (the worker is a total function: nothing propagates, nothing
retries), and a later poll returns that error string and removes the job;
the exception `generate_hooks` itself raises wraps the client error as
`Failed to generate hooks: ...`. -/
theorem worker_error_terminal (g : List Char) (reg : Registry) (emsg : List Char)
    (hg : g ≠ []) :
    lookupReg g (runWorker g (.error emsg) reg) =
      some ⟨"error".data, PyVal.str ("❌ Error: ".data ++ emsg)⟩ ∧
    checkGenerationStatus (some g) (runWorker g (.error emsg) reg) =
      (PyVal.str ("❌ Error: ".data ++ emsg), true,
        eraseReg g (runWorker g (.error emsg) reg)) ∧
    (∀ e, generateHooks (.error e) =
      .error ("Failed to generate hooks: ".data ++ e)) := by
  have hl : lookupReg g (runWorker g (.error emsg) reg) =
      some ⟨"error".data, PyVal.str ("❌ Error: ".data ++ emsg)⟩ := by
    simp [runWorker, lookupReg_insertReg_self]
  exact ⟨hl,
    poll_terminal_aux g _ _ hg hl rfl,
    fun e => rfl⟩

theorem worker_error_terminal_witness :
    lookupReg "gen_1_9.5".data
        (runWorker "gen_1_9.5".data (.error "boom".data) []) =
      some ⟨"error".data, PyVal.str ("❌ Error: ".data ++ "boom".data)⟩ ∧
    checkGenerationStatus (some "gen_1_9.5".data)
        (runWorker "gen_1_9.5".data (.error "boom".data) []) =
      (PyVal.str ("❌ Error: ".data ++ "boom".data), true,
        eraseReg "gen_1_9.5".data
          (runWorker "gen_1_9.5".data (.error "boom".data) [])) :=
  ⟨(worker_error_terminal "gen_1_9.5".data [] "boom".data (by decide)).1,
   (worker_error_terminal "gen_1_9.5".data [] "boom".data (by decide)).2.1⟩

/-! ### Claim C5: failure capture in the worker -/

/-- A `messages`-shaped response whose final message has no `content`
key: an unusable shape that `_query_endpoint` passes through unvalidated. -/
def noContentResponse : ModelResponse :=
  { messages := some [{ role := some "assistant".data, content := Option.none }]
    choices := Option.none }

/-- C5 counterexample: the response above is an unusable shape (no usable
message content), yet the worker records a `complete` — not `error` — job
whose result is the placeholder string `Error: No content in response`. -/
theorem missing_content_completes :
    generateHooks (.ok noContentResponse) =
      .ok (PyVal.str "Error: No content in response".data) ∧
    lookupReg "gen_1_9.5".data
        (runWorker "gen_1_9.5".data (generateHooks (.ok noContentResponse)) []) =
      some ⟨"complete".data, PyVal.str "Error: No content in response".data⟩ ∧
    ("complete".data : List Char) ≠ "error".data :=
  ⟨rfl, rfl, by decide⟩

/-- C5 (amended): every generation failure that raises — including the
unusable `choices` shapes `_query_endpoint` rejects — is captured inside
the worker and converted into a terminal `error` job with the
display-ready message `"❌ Error: " + str(e)`, and the worker never
propagates an exception; however a `messages`-shaped response whose final
message lacks a `content` key does not raise and yields a `complete` job
whose result is the placeholder string `Error: No content in response`. -/
theorem worker_failure_policy (call : Except (List Char) ModelResponse)
    (g : List Char) (reg : Registry) :
    (∀ e, generateHooks call = .error e →
      lookupReg g (runWorker g (generateHooks call) reg) =
        some ⟨"error".data, PyVal.str ("❌ Error: ".data ++ e)⟩) ∧
    (∀ res ch chs m, call = .ok res → res.messages = Option.none →
      res.choices = some (ch :: chs) → ch.message = some m →
      (m.content = Option.none ∨ m.content = some PyVal.none) →
      generateHooks call =
        .error ("Failed to generate hooks: ".data ++ unsupportedEndpointMsg)) ∧
    (∀ res msgs m, call = .ok res → res.messages = some msgs →
      msgs.getLast? = some m → m.content = Option.none →
      lookupReg g (runWorker g (generateHooks call) reg) =
        some ⟨"complete".data,
          PyVal.str "Error: No content in response".data⟩) := by
  refine ⟨?_, ?_, ?_⟩
  · intro e he
    rw [he]
    simp [runWorker, lookupReg_insertReg_self]
  · rintro res ch chs m rfl hmsgs hchoices hmsg (hc | hc) <;>
      simp [generateHooks, queryEndpoint, queryEndpointRaw, hmsgs, hchoices,
        hmsg, hc]
  · rintro res msgs m rfl hmsgs hlast hc
    simp [generateHooks, queryEndpoint, queryEndpointRaw, hmsgs, hlast, hc,
      runWorker, lookupReg_insertReg_self]

theorem worker_failure_policy_witness :
    generateHooks (.error "boom".data) =
      .error ("Failed to generate hooks: ".data ++ "boom".data) ∧
    lookupReg "gen_1_9.5".data
        (runWorker "gen_1_9.5".data (generateHooks (.error "boom".data)) []) =
      some ⟨"error".data,
        PyVal.str ("❌ Error: ".data ++ ("Failed to generate hooks: ".data ++ "boom".data))⟩ :=
  ⟨rfl,
   (worker_failure_policy (.error "boom".data) "gen_1_9.5".data []).1
     ("Failed to generate hooks: ".data ++ "boom".data) rfl⟩

/-! ### Claim C7: job id uniqueness

`Nat.repr` renders the click count in decimal; its characters are digits
(hence never an underscore) and the rendering is injective, so two ids of
the same kind with different click counts, and any two ids of different
kinds, always differ — regardless of the timestamp parts. -/

def digitVal (c : Char) : Nat := c.toNat - 48

def decodeDigits (l : List Char) : Nat :=
  l.foldl (fun a c => 10 * a + digitVal c) 0

theorem digitChar_spec (m : Nat) (h : m < 10) :
    (Nat.digitChar m).isDigit = true ∧ digitVal (Nat.digitChar m) = m := by
  interval_cases m <;> exact ⟨by decide, by decide⟩

theorem toDigitsCore_acc (fuel : Nat) :
    ∀ (n : Nat) (ds : List Char),
      Nat.toDigitsCore 10 fuel n ds = Nat.toDigitsCore 10 fuel n [] ++ ds := by
  induction fuel with
  | zero => intro n ds; simp [Nat.toDigitsCore]
  | succ f ih =>
    intro n ds
    simp only [Nat.toDigitsCore]
    by_cases h : n / 10 = 0
    · simp [h]
    · simp only [h, if_false]
      rw [ih (n / 10) (Nat.digitChar (n % 10) :: ds),
        ih (n / 10) [Nat.digitChar (n % 10)]]
      simp

theorem decodeDigits_append (xs : List Char) (c : Char) :
    decodeDigits (xs ++ [c]) = 10 * decodeDigits xs + digitVal c := by
  simp [decodeDigits, List.foldl_append]

theorem repr_core_spec (n : Nat) : ∀ fuel, n < fuel →
    decodeDigits (Nat.toDigitsCore 10 fuel n []) = n ∧
    (∀ c ∈ Nat.toDigitsCore 10 fuel n [], c.isDigit = true) := by
  induction n using Nat.strong_induction_on with
  | _ n ih =>
    intro fuel hf
    cases fuel with
    | zero => omega
    | succ g =>
      simp only [Nat.toDigitsCore]
      by_cases h : n / 10 = 0
      · have hn : n < 10 := (Nat.div_eq_zero_iff (by omega)).mp h
        rw [Nat.mod_eq_of_lt hn]
        simp [h, decodeDigits, (digitChar_spec n hn).1, (digitChar_spec n hn).2]
      · have hne : n ≠ 0 := by
          intro h0; subst h0; simp at h
        have hdiv : n / 10 < n := Nat.div_lt_self (by omega) (by omega)
        have hg : n / 10 < g := by omega
        obtain ⟨ihd, ihm⟩ := ih (n / 10) hdiv g hg
        have hmod : n % 10 < 10 := Nat.mod_lt _ (by omega)
        simp only [h, if_false]
        rw [toDigitsCore_acc g (n / 10) [Nat.digitChar (n % 10)]]
        constructor
        · rw [decodeDigits_append, ihd, (digitChar_spec _ hmod).2]
          omega
        · intro c hc
          rcases List.mem_append.mp hc with hc | hc
          · exact ihm c hc
          · simp only [List.mem_singleton] at hc
            rw [hc]
            exact (digitChar_spec _ hmod).1

theorem repr_data_eq (n : Nat) :
    (Nat.repr n).data = Nat.toDigitsCore 10 (n + 1) n [] := rfl

theorem repr_digits (n : Nat) : ∀ c ∈ (Nat.repr n).data, c.isDigit = true := by
  rw [repr_data_eq]
  exact (repr_core_spec n (n + 1) (by omega)).2

theorem repr_injective {n m : Nat}
    (h : (Nat.repr n).data = (Nat.repr m).data) : n = m := by
  have h1 := (repr_core_spec n (n + 1) (by omega)).1
  have h2 := (repr_core_spec m (m + 1) (by omega)).1
  rw [repr_data_eq, repr_data_eq] at h
  rw [h] at h1
  rw [h2] at h1
  exact h1.symm

theorem repr_no_underscore (n : Nat) : ∀ c ∈ (Nat.repr n).data, c ≠ '_' := by
  intro c hc heq
  have hd := repr_digits n c hc
  rw [heq] at hd
  exact absurd hd (by decide)

theorem append_underscore_inj {a b x y : List Char}
    (ha : ∀ c ∈ a, c ≠ '_') (hb : ∀ c ∈ b, c ≠ '_')
    (h : a ++ '_' :: x = b ++ '_' :: y) : a = b ∧ x = y := by
  induction a generalizing b with
  | nil =>
    cases b with
    | nil => simpa using h
    | cons d b' =>
      exfalso
      simp only [List.nil_append, List.cons_append, List.cons.injEq] at h
      exact hb d (by simp) h.1.symm
  | cons c a' ih =>
    cases b with
    | nil =>
      exfalso
      simp only [List.nil_append, List.cons_append, List.cons.injEq] at h
      exact ha c (by simp) h.1
    | cons d b' =>
      simp only [List.cons_append, List.cons.injEq] at h
      obtain ⟨hcd, ht⟩ := h
      obtain ⟨h1, h2⟩ := ih (fun e he => ha e (by simp [he]))
        (fun e he => hb e (by simp [he])) ht
      exact ⟨by rw [hcd, h1], h2⟩

theorem genHookId_eq (n : Nat) (t : List Char) :
    genHookId n t = 'g' :: 'e' :: 'n' :: '_' :: ((Nat.repr n).data ++ '_' :: t) := by
  simp [genHookId]

theorem genThumbId_eq (n : Nat) (t : List Char) :
    genThumbId n t =
      't' :: 'h' :: 'u' :: 'm' :: 'b' :: '_' :: ((Nat.repr n).data ++ '_' :: t) := by
  simp [genThumbId]

/-- C7: two successful start calls never collide on the job id: distinct
click counts of the same kind give distinct ids (whatever the two
timestamps are, including identical ones), and a hooks id never equals a
thumbnails id. -/
theorem job_ids_distinct (n m : Nat) (t u : List Char) :
    (n ≠ m → genHookId n t ≠ genHookId m u) ∧
    (n ≠ m → genThumbId n t ≠ genThumbId m u) ∧
    genHookId n t ≠ genThumbId m u := by
  refine ⟨?_, ?_, ?_⟩
  · intro hnm h
    rw [genHookId_eq, genHookId_eq] at h
    simp only [List.cons.injEq, true_and] at h
    exact hnm (repr_injective
      (append_underscore_inj (repr_no_underscore n) (repr_no_underscore m) h).1)
  · intro hnm h
    rw [genThumbId_eq, genThumbId_eq] at h
    simp only [List.cons.injEq, true_and] at h
    exact hnm (repr_injective
      (append_underscore_inj (repr_no_underscore n) (repr_no_underscore m) h).1)
  · intro h
    rw [genHookId_eq, genThumbId_eq] at h
    simp at h

theorem job_ids_distinct_witness :
    (1 : Nat) ≠ 2 ∧
    genHookId 1 "9.5".data ≠ genHookId 2 "9.5".data ∧
    genThumbId 1 "9.5".data ≠ genThumbId 2 "9.5".data ∧
    genHookId 1 "9.5".data ≠ genThumbId 1 "9.5".data :=
  ⟨by decide,
   (job_ids_distinct 1 2 "9.5".data "9.5".data).1 (by decide),
   (job_ids_distinct 1 2 "9.5".data "9.5".data).2.1 (by decide),
   (job_ids_distinct 1 1 "9.5".data "9.5".data).2.2⟩

/-! ### Claim C8: one-shot split of the thumbnail hand-off -/

theorem isPrefixL_append_self (p x : List Char) : isPrefixL p (p ++ x) = true := by
  induction p with
  | nil => rfl
  | cons c p ih => simp [isPrefixL, ih]

theorem drop_length_append (p x : List Char) : (p ++ x).drop p.length = x := by
  induction p with
  | nil => rfl
  | cons c p ih => simpa using ih

theorem findSplit_cons (sep : List Char) (c : Char) (r : List Char) :
    findSplit sep (c :: r) =
      if isPrefixL sep (c :: r) then some ([], (c :: r).drop sep.length)
      else (findSplit sep r).map (fun p => (c :: p.1, p.2)) := rfl

/-- `parts[0]` of Python `split`: if the separator's first occurrence in
`a ++ (sep ++ b)` is exactly at the end of `a` (no match starts inside
`a`), the split yields `a` before and `b` after. -/
theorem findSplit_of_first (sep a b : List Char) (hsep : sep ≠ [])
    (hno : ∀ i, i < a.length → isPrefixL sep ((a ++ (sep ++ b)).drop i) = false) :
    findSplit sep (a ++ (sep ++ b)) = some (a, b) := by
  induction a with
  | nil =>
    cases sep with
    | nil => exact absurd rfl hsep
    | cons c s' =>
      show findSplit (c :: s') ((c :: s') ++ b) = some ([], b)
      have hp : isPrefixL (c :: s') ((c :: s') ++ b) = true :=
        isPrefixL_append_self _ _
      have hd : ((c :: s') ++ b).drop (c :: s').length = b := drop_length_append _ _
      rw [show (c :: s') ++ b = c :: (s' ++ b) from rfl] at hp hd ⊢
      rw [findSplit_cons, hp, hd]
      simp
  | cons c a' ih =>
    have h0 : isPrefixL sep (c :: (a' ++ (sep ++ b))) = false := by
      simpa using hno 0 (by simp)
    rw [show (c :: a') ++ (sep ++ b) = c :: (a' ++ (sep ++ b)) from rfl]
    rw [findSplit_cons, h0]
    simp only [Bool.false_eq_true, if_false]
    rw [ih (fun i hi => by simpa using hno (i + 1) (by simpa using hi))]
    rfl

/-- One reduction step of the scan when the pattern matches here. -/
theorem extractImages_match {s cap after : List Char}
    (h : matchImageAt s = some (cap, after)) :
    extractImages s = cap :: extractImages after := by
  cases s with
  | nil => simp [matchImageAt, imgPat1, isPrefixL] at h
  | cons c rest => rw [extractImages, h]

/-- One reduction step of the scan when the pattern does not match here. -/
theorem extractImages_step_none (c : Char) (s : List Char)
    (h : matchImageAt (c :: s) = Option.none) :
    extractImages (c :: s) = extractImages s := by
  rw [extractImages, h]

theorem extractImages_skip (u v : List Char)
    (hno : ∀ i, i < u.length → matchImageAt ((u ++ v).drop i) = Option.none) :
    extractImages (u ++ v) = extractImages v := by
  induction u with
  | nil => simp
  | cons c u' ih =>
    have h0 : matchImageAt (c :: (u' ++ v)) = Option.none := by
      simpa using hno 0 (by simp)
    rw [List.cons_append, extractImages_step_none c (u' ++ v) h0]
    exact ih (fun i hi => by simpa using hno (i + 1) (by simpa using hi))

theorem matchImageAt_cons_ne (c : Char) (s : List Char) (hc : c ≠ 'I') :
    matchImageAt (c :: s) = Option.none := by
  unfold matchImageAt
  have hp : isPrefixL imgPat1 (c :: s) = false := by
    rw [show imgPat1 = 'I' :: "mage ".data from rfl]
    simp only [isPrefixL, Bool.and_eq_false_iff]
    exact Or.inl (by simpa using fun h => hc h.symm)
  simp [hp]

theorem takeWhile_append_of (p : Char → Bool) (ds : List Char) (q : Char)
    (tail : List Char) (hall : ∀ c ∈ ds, p c = true) (hq : p q = false) :
    ((ds ++ q :: tail).takeWhile p) = ds := by
  induction ds with
  | nil => simp [List.takeWhile_cons, hq]
  | cons c ds ih =>
    simp [List.takeWhile_cons, hall c (by simp),
      ih (fun c hc => hall c (by simp [hc]))]

def imgEndTl : List Char := "[END_IMAGE_DATA]".data

theorem imgEnd_cons : imgEnd = '\n' :: imgEndTl := rfl

theorem imgCaptureGo_block (b : List Char) :
    ∀ (accRev rest : List Char), '\n' ∉ b →
      imgCaptureGo accRev (b ++ (imgEnd ++ rest)) =
        some (accRev.reverse ++ b, rest) := by
  induction b with
  | nil =>
    intro accRev rest _
    have h1 : isPrefixL imgEnd (imgEnd ++ rest) = true := isPrefixL_append_self _ _
    rw [List.nil_append, imgEnd_cons, List.cons_append]
    simp only [imgCaptureGo]
    rw [← List.cons_append, ← imgEnd_cons, h1]
    simp [drop_length_append]
  | cons x b' ih =>
    intro accRev rest hnl
    have hx : x ≠ '\n' := fun h => hnl (by simp [h])
    have hpre : isPrefixL imgEnd (x :: (b' ++ (imgEnd ++ rest))) = false := by
      rw [imgEnd_cons]
      simp only [isPrefixL, Bool.and_eq_false_iff]
      exact Or.inl (by simpa using fun h => hx h.symm)
    rw [List.cons_append]
    simp only [imgCaptureGo, hpre, Bool.false_eq_true, if_false]
    rw [ih (x :: accRev) rest (fun h => hnl (by simp [h]))]
    simp

/-- A full block match: at a block of the generated form, the regex
captures exactly the (non-empty, newline-free) base64 payload and the
scan resumes right after the consumed `\n[END_IMAGE_DATA]` literal. -/
theorem matchImageAt_block (ds b rest : List Char) (hds : ds ≠ [])
    (hdig : ∀ c ∈ ds, c.isDigit = true) (hb : b ≠ []) (hnl : '\n' ∉ b) :
    matchImageAt (imgPat1 ++ (ds ++ (imgPat2 ++ (b ++ (imgEnd ++ rest))))) =
      some (b, rest) := by
  unfold matchImageAt
  rw [if_pos (isPrefixL_append_self imgPat1 (ds ++ (imgPat2 ++ (b ++ (imgEnd ++ rest))))),
    drop_length_append]
  unfold imgAfterPat1
  have hcolon : imgPat2 = ':' :: "\n[BASE64_IMAGE_DATA]\n".data := rfl
  have htake :
      ((ds ++ (imgPat2 ++ (b ++ (imgEnd ++ rest)))).takeWhile Char.isDigit) = ds := by
    rw [hcolon]
    exact takeWhile_append_of Char.isDigit ds ':' _ hdig (by decide)
  rw [htake]
  have hde : ds.isEmpty = false := by
    cases ds with
    | nil => exact absurd rfl hds
    | cons => rfl
  rw [hde]
  simp only [Bool.false_eq_true, if_false]
  rw [drop_length_append]
  unfold imgAfterDigits
  rw [if_pos (isPrefixL_append_self imgPat2 (b ++ (imgEnd ++ rest))),
    drop_length_append]
  cases b with
  | nil => exact absurd rfl hb
  | cons c b' =>
    show imgCaptureGo [c] (b' ++ (imgEnd ++ rest)) = some (c :: b', rest)
    rw [imgCaptureGo_block b' [c] rest (fun h => hnl (by simp [h]))]
    simp

theorem stripChars_no_ws (b : List Char) (h : ∀ c ∈ b, c.isWhitespace = false) :
    stripChars b = b := by
  unfold stripChars
  have h1 : b.dropWhile Char.isWhitespace = b := by
    cases b with
    | nil => rfl
    | cons c bs => simp [List.dropWhile_cons, h c (by simp)]
  rw [h1]
  have h2 : b.reverse.dropWhile Char.isWhitespace = b.reverse := by
    cases hb : b.reverse with
    | nil => rfl
    | cons c bs =>
      have hc : c ∈ b := by
        rw [← List.mem_reverse, hb]; simp
      simp [List.dropWhile_cons, h c hc]
  rw [h2, List.reverse_reverse]

theorem stripChars_within (s : List Char) : stripChars s <:+: s := by
  obtain ⟨t0, ht⟩ := List.dropWhile_suffix (l := s) Char.isWhitespace
  obtain ⟨r0, hr⟩ :=
    List.dropWhile_suffix (l := (s.dropWhile Char.isWhitespace).reverse)
      Char.isWhitespace
  refine ⟨t0, r0.reverse, ?_⟩
  have hX : stripChars s ++ r0.reverse = s.dropWhile Char.isWhitespace := by
    have h := congrArg List.reverse hr
    simpa [stripChars] using h
  rw [List.append_assoc, hX, ht]

/-- C8: on a completed thumbnail payload of the generated shape (concepts
text, the `🎨 GENERATED IMAGES` marker with its framing, then two framed
base64 blocks), the hand-off splits exactly at the marker: the copyable
store receives only the stripped text before the marker, both framed
blobs are extracted and rendered as images, and neither blob is part of
the copy payload. -/
theorem display_handoff (a u b₁ b₂ payload : List Char)
    (hpay : payload = a ++ (thumbMarker ++ (u ++
      ("Image 1:\n[BASE64_IMAGE_DATA]\n".data ++ (b₁ ++
        ("\n[END_IMAGE_DATA]\n\n".data ++
          ("Image 2:\n[BASE64_IMAGE_DATA]\n".data ++ (b₂ ++
            "\n[END_IMAGE_DATA]\n\n".data))))))))
    (hmarker : ∀ i, i < a.length →
      isPrefixL thumbMarker (payload.drop i) = false)
    (hskip : ∀ i, i < a.length + (thumbMarker.length + u.length) →
      matchImageAt (payload.drop i) = Option.none)
    (hb₁ : b₁ ≠ []) (hw₁ : ∀ c ∈ b₁, c.isWhitespace = false)
    (hb₂ : b₂ ≠ []) (hw₂ : ∀ c ∈ b₂, c.isWhitespace = false)
    (hex₁ : ¬ b₁ <:+: a) (hex₂ : ¬ b₂ <:+: a) :
    displayThumbnailResults payload =
      { conceptsText := a, storeData := stripChars a,
        imageMatches := [b₁, b₂], rendered := [(1, b₁), (2, b₂)] } ∧
    ¬ b₁ <:+: stripChars a ∧ ¬ b₂ <:+: stripChars a := by
  subst hpay
  have hnl₁ : '\n' ∉ b₁ := fun h => absurd (hw₁ '\n' h) (by decide)
  have hnl₂ : '\n' ∉ b₂ := fun h => absurd (hw₂ '\n' h) (by decide)
  -- the image blocks, in right-nested form
  set R2 : List Char :=
    "Image 2:\n[BASE64_IMAGE_DATA]\n".data ++ (b₂ ++ "\n[END_IMAGE_DATA]\n\n".data)
    with hR2def
  set V : List Char :=
    "Image 1:\n[BASE64_IMAGE_DATA]\n".data ++ (b₁ ++
      ("\n[END_IMAGE_DATA]\n\n".data ++ R2)) with hVdef
  have eqA1 : "Image 1:\n[BASE64_IMAGE_DATA]\n".data = imgPat1 ++ (['1'] ++ imgPat2) := by
    decide
  have eqA2 : "Image 2:\n[BASE64_IMAGE_DATA]\n".data = imgPat1 ++ (['2'] ++ imgPat2) := by
    decide
  have eqE2 : "\n[END_IMAGE_DATA]\n\n".data = imgEnd ++ ['\n', '\n'] := by decide
  -- `parts[0]` of the split is exactly the text before the marker
  have P1 : findSplit thumbMarker (a ++ (thumbMarker ++ (u ++ V))) =
      some (a, u ++ V) :=
    findSplit_of_first thumbMarker a (u ++ V) (by decide) hmarker
  -- the scan finds nothing before the first block
  have hUV : (a ++ (thumbMarker ++ u)) ++ V = a ++ (thumbMarker ++ (u ++ V)) := by
    simp
  have hskip' : ∀ i, i < (a ++ (thumbMarker ++ u)).length →
      matchImageAt (((a ++ (thumbMarker ++ u)) ++ V).drop i) = Option.none := by
    intro i hi
    rw [hUV]
    apply hskip
    simpa using hi
  have P2a : extractImages (a ++ (thumbMarker ++ (u ++ V))) = extractImages V := by
    rw [← hUV]
    exact extractImages_skip _ _ hskip'
  -- first block
  have hV : V = imgPat1 ++ (['1'] ++ (imgPat2 ++ (b₁ ++
      (imgEnd ++ (['\n', '\n'] ++ R2))))) := by
    rw [hVdef, eqA1, eqE2]
    simp
  have e1 : extractImages V = b₁ :: extractImages (['\n', '\n'] ++ R2) :=
    extractImages_match (by
      rw [hV]
      exact matchImageAt_block ['1'] b₁ (['\n', '\n'] ++ R2) (by decide) (by decide)
        hb₁ hnl₁)
  have e2 : extractImages (['\n', '\n'] ++ R2) = extractImages R2 := by
    rw [show ['\n', '\n'] ++ R2 = '\n' :: ('\n' :: R2) from rfl]
    rw [extractImages_step_none _ _ (matchImageAt_cons_ne '\n' _ (by decide))]
    rw [extractImages_step_none _ _ (matchImageAt_cons_ne '\n' _ (by decide))]
  -- second block
  have hR2 : R2 = imgPat1 ++ (['2'] ++ (imgPat2 ++ (b₂ ++
      (imgEnd ++ ['\n', '\n'])))) := by
    rw [hR2def, eqA2, eqE2]
    simp
  have e3 : extractImages R2 = b₂ :: extractImages ['\n', '\n'] :=
    extractImages_match (by
      rw [hR2]
      exact matchImageAt_block ['2'] b₂ ['\n', '\n'] (by decide) (by decide)
        hb₂ hnl₂)
  have e4 : extractImages ['\n', '\n'] = [] := by
    rw [show (['\n', '\n'] : List Char) = '\n' :: ['\n'] from rfl,
      extractImages_step_none _ _ (matchImageAt_cons_ne '\n' _ (by decide)),
      show (['\n'] : List Char) = '\n' :: [] from rfl,
      extractImages_step_none _ _ (matchImageAt_cons_ne '\n' _ (by decide))]
    simp [extractImages]
  have P2 : extractImages (a ++ (thumbMarker ++ (u ++ V))) = [b₁, b₂] := by
    rw [P2a, e1, e2, e3, e4]
  -- assemble the hand-off
  have hs₁ : stripChars b₁ = b₁ := stripChars_no_ws b₁ hw₁
  have hs₂ : stripChars b₂ = b₂ := stripChars_no_ws b₂ hw₂
  have hie₁ : b₁.isEmpty = false := by
    cases b₁ with
    | nil => exact absurd rfl hb₁
    | cons => rfl
  have hie₂ : b₂.isEmpty = false := by
    cases b₂ with
    | nil => exact absurd rfl hb₂
    | cons => rfl
  refine ⟨?_, fun h => hex₁ (h.trans (stripChars_within a)),
    fun h => hex₂ (h.trans (stripChars_within a))⟩
  simp [displayThumbnailResults, P1, P2, hs₁, hs₂, hie₁, hie₂, hb₁, hb₂,
    List.filterMap_cons]

/-- A concrete payload of the generated shape, used to evaluate the
hand-off split. -/
def samplePayload : List Char :=
  "Ideas".data ++ (thumbMarker ++ ("\n\n".data ++
    ("Image 1:\n[BASE64_IMAGE_DATA]\n".data ++ ("QUJD".data ++
      ("\n[END_IMAGE_DATA]\n\n".data ++
        ("Image 2:\n[BASE64_IMAGE_DATA]\n".data ++ ("REVG".data ++
          "\n[END_IMAGE_DATA]\n\n".data)))))))

theorem display_handoff_witness :
    displayThumbnailResults samplePayload =
      { conceptsText := "Ideas".data, storeData := stripChars "Ideas".data,
        imageMatches := ["QUJD".data, "REVG".data],
        rendered := [(1, "QUJD".data), (2, "REVG".data)] } ∧
    ¬ "QUJD".data <:+: stripChars "Ideas".data ∧
    ¬ "REVG".data <:+: stripChars "Ideas".data :=
  display_handoff "Ideas".data "\n\n".data "QUJD".data "REVG".data samplePayload
    rfl (by decide) (by decide) (by decide) (by decide) (by decide) (by decide)
    (by decide) (by decide)

/-! ### Claim C9: per-description image blocks of `generate_thumbnails` -/

theorem thumbImageBlocks_eq_map (imageCall : List Char → Except (List Char) ImageResp) :
    ∀ (k : Nat) (ds : List (List Char)),
      thumbImageBlocks imageCall k ds = (ds.enumFrom k).map (fun p =>
        if genImage (imageCall (stripChars p.2)) ≠ [] then
          "Image ".data ++ (Nat.repr p.1).data ++ ":\n[BASE64_IMAGE_DATA]\n".data ++
            genImage (imageCall (stripChars p.2)) ++ "\n[END_IMAGE_DATA]\n\n".data
        else
          "Image ".data ++ (Nat.repr p.1).data ++ ": ❌ Failed to generate\n\n".data) := by
  intro k ds
  induction ds generalizing k with
  | nil => simp [thumbImageBlocks]
  | cons d ds ih => simp [thumbImageBlocks, ih]

/-- C9: whenever the concepts step succeeds with a string payload, the
call returns normally (image generation cannot raise out of the loop) and
the payload is the concepts text, the `🎨 GENERATED IMAGES` header, then —
for the first at most two extracted image descriptions, numbered from 1 —
either the framed base64 block on image success or the literal
`Image \x7bn\x7d: ❌ Failed to generate` line on image failure. -/
theorem thumbnails_blocks (call : Except (List Char) ModelResponse)
    (imageCall : List Char → Except (List Char) ImageResp)
    (msgs : List Message) (m : Message) (concepts : List Char)
    (hq : queryEndpoint call = .ok msgs) (hlast : msgs.getLast? = some m)
    (hcontent : m.content = some (.str concepts)) :
    generateThumbnails call imageCall =
      .ok (concepts ++ imagesHeader ++
        ((((extractDescriptions concepts).take 2).enumFrom 1).map (fun p =>
          if genImage (imageCall (stripChars p.2)) ≠ [] then
            "Image ".data ++ (Nat.repr p.1).data ++ ":\n[BASE64_IMAGE_DATA]\n".data ++
              genImage (imageCall (stripChars p.2)) ++ "\n[END_IMAGE_DATA]\n\n".data
          else
            "Image ".data ++ (Nat.repr p.1).data ++
              ": ❌ Failed to generate\n\n".data)).flatten) := by
  simp only [generateThumbnails, hq, hlast, hcontent, thumbImageBlocks_eq_map]

def c9concepts : List Char :=
  "IMAGE_DESCRIPTION: melting graph\n\nIMAGE_DESCRIPTION: burning money".data

def c9msg : Message :=
  { role := some "assistant".data, content := some (.str c9concepts) }

def c9call : Except (List Char) ModelResponse :=
  .ok { messages := some [c9msg], choices := Option.none }

/-- An image backend that succeeds for the first description and fails for
the second. -/
def c9imageCall : List Char → Except (List Char) ImageResp := fun d =>
  if d = "melting graph".data then .ok (.dict (some [{ b64Json := some "QUJD".data }]))
  else .error "image endpoint down".data

theorem thumbnails_blocks_witness :
    queryEndpoint c9call = .ok [c9msg] ∧
    [c9msg].getLast? = some c9msg ∧
    c9msg.content = some (.str c9concepts) ∧
    generateThumbnails c9call c9imageCall =
      .ok (c9concepts ++ imagesHeader ++
        ((((extractDescriptions c9concepts).take 2).enumFrom 1).map (fun p =>
          if genImage (c9imageCall (stripChars p.2)) ≠ [] then
            "Image ".data ++ (Nat.repr p.1).data ++ ":\n[BASE64_IMAGE_DATA]\n".data ++
              genImage (c9imageCall (stripChars p.2)) ++ "\n[END_IMAGE_DATA]\n\n".data
          else
            "Image ".data ++ (Nat.repr p.1).data ++
              ": ❌ Failed to generate\n\n".data)).flatten) :=
  ⟨rfl, rfl, rfl,
   thumbnails_blocks c9call c9imageCall [c9msg] c9msg c9concepts rfl rfl rfl⟩

/-! ### Claim C10: the clear button only resets presentation state -/

/-- C10: clearing (both clear callbacks, which fire on the same click)
leaves the job registry exactly as it was — no job is cancelled or
removed — and leaves both interval `disabled` flags untouched, so a job in
flight at clear time still reaches its terminal entry, is consumed by a
later poll, and its non-`None` result is displayed. -/
theorem clear_preserves_jobs (n : Nat) (s : UiState) :
    (clearThumbnails n (clearAll n s)).registry = s.registry ∧
    (clearThumbnails n (clearAll n s)).checkIntervalDisabled =
      s.checkIntervalDisabled ∧
    (clearThumbnails n (clearAll n s)).thumbCheckIntervalDisabled =
      s.thumbCheckIntervalDisabled ∧
    (∀ g v, runWorker g (.ok v) (clearThumbnails n (clearAll n s)).registry =
      runWorker g (.ok v) s.registry) ∧
    (∀ g v, g ≠ [] →
      checkGenerationStatus (some g)
          (runWorker g (.ok v) (clearThumbnails n (clearAll n s)).registry) =
        (v, true, eraseReg g (runWorker g (.ok v) s.registry))) ∧
    (∀ v, v ≠ PyVal.none →
      displayResults v = some (v, dispNone, dispBlock, v)) := by
  have hreg : (clearThumbnails n (clearAll n s)).registry = s.registry := by
    by_cases hn : n ≠ 0 <;> simp [clearAll, clearThumbnails, hn]
  refine ⟨hreg, ?_, ?_, fun g v => by rw [hreg], ?_, ?_⟩
  · by_cases hn : n ≠ 0 <;> simp [clearAll, clearThumbnails, hn]
  · by_cases hn : n ≠ 0 <;> simp [clearAll, clearThumbnails, hn]
  · intro g v hg
    rw [hreg]
    have hl : lookupReg g (runWorker g (.ok v) s.registry) =
        some ⟨"complete".data, v⟩ := by
      simp [runWorker, lookupReg_insertReg_self]
    exact poll_terminal_aux g (runWorker g (.ok v) s.registry)
      ⟨"complete".data, v⟩ hg hl rfl
  · intro v hv
    cases v with
    | none => exact absurd rfl hv
    | str s' => rfl
    | parts l => rfl

def c10state : UiState :=
  { blogInput := some "draft".data, outputDisplay := dispBlock,
    generationResult := PyVal.none, thumbOutputDisplay := dispNone,
    thumbGenerationResult := PyVal.none, checkIntervalDisabled := false,
    thumbCheckIntervalDisabled := true,
    registry := [("gen_1_9.5".data, runningEntry)] }

theorem clear_preserves_jobs_witness :
    (clearThumbnails 1 (clearAll 1 c10state)).registry = c10state.registry ∧
    checkGenerationStatus (some "gen_1_9.5".data)
        (runWorker "gen_1_9.5".data (.ok (PyVal.str "done".data))
          (clearThumbnails 1 (clearAll 1 c10state)).registry) =
      (PyVal.str "done".data, true,
        eraseReg "gen_1_9.5".data
          (runWorker "gen_1_9.5".data (.ok (PyVal.str "done".data))
            c10state.registry)) ∧
    displayResults (PyVal.str "done".data) =
      some (PyVal.str "done".data, dispNone, dispBlock, PyVal.str "done".data) :=
  ⟨(clear_preserves_jobs 1 c10state).1,
   (clear_preserves_jobs 1 c10state).2.2.2.2.1 _ _ (by decide),
   (clear_preserves_jobs 1 c10state).2.2.2.2.2 _ (by decide)⟩

end HookApp
